import Mathlib

/-!
Verification of the email-triage pipeline in `gmail_priority.py` (the
filter-mode variant, modelled in namespace `V1`) and
`gmail_priority/main.py` (the full-digest variant, modelled in namespace
`V2`).  Pure Python functions are embedded as Lean functions; the
effectful `main` of each script is embedded as a function from its inputs
(environment, fetched emails, parsed model scores, transport behaviour)
to the list of collaborator invocations it performs plus its final
outcome.  Python text payloads handled by the response normalizers are
embedded as `List Char`.
-/

/-- One fetched email's metadata, as built by `fetch_unread_emails` in both
scripts: a dict with keys `id`, `subject`, `sender`, `snippet`. -/
structure Message where
  id : String
  subject : String
  sender : String
  snippet : String
deriving DecidableEq, Repr

/-- The backtick character, written by code point to keep the source free of
literal backticks. -/
def bt : Char := '\x60'

/-- The three-character code-fence marker handled by the digest variant. -/
def fence : List Char := [bt, bt, bt]

/-- The opening fence marker of a fenced JSON block, through its trailing
language tag: the seven characters before the newline in a fenced wrapping. -/
def fenceJson : List Char := [bt, bt, bt, 'j', 's', 'o', 'n']

/-- Python `str.isspace` characters relevant to `str.strip()`. -/
def isSpc (c : Char) : Bool :=
  c == ' ' || c == '\t' || c == '\n' || c == '\r' || c == '\x0b' || c == '\x0c'

/-- Embedding of Python `text.strip()`: remove leading and trailing
whitespace. -/
def pyStrip (s : List Char) : List Char :=
  ((s.dropWhile isSpc).reverse.dropWhile isSpc).reverse

/-- Helper for Python `text.split("\n", 1)`: the part after the first
newline, if any. -/
def splitOnce : List Char → Option (List Char)
  | [] => none
  | c :: rest => if c = '\n' then some rest else splitOnce rest

/-- Embedding of Python `text.split("\n", 1)[-1]`: everything after the
first newline, or the whole text when it has no newline. -/
def afterNl (s : List Char) : List Char :=
  (splitOnce s).getD s

/-- Index of the last occurrence of the fence marker in a text, if any
(the split point of Python `text.rsplit("\x60\x60\x60", 1)`). -/
def lastFence : List Char → Option Nat
  | [] => none
  | c :: rest =>
    match lastFence rest with
    | some i => some (i + 1)
    | none => if fence.isPrefixOf (c :: rest) then some 0 else none

/-- Embedding of Python `text.rsplit("\x60\x60\x60", 1)[0]`: everything
before the last fence marker, or the whole text when there is none. -/
def rsplitFence (s : List Char) : List Char :=
  match lastFence s with
  | some i => s.take i
  | none => s

/-- A text payload wrapped in a fenced JSON code block, the shape the
digest variant's comment describes as needing stripping. -/
def wrapFence (t : List Char) : List Char :=
  fenceJson ++ '\n' :: (t ++ '\n' :: fence)

/-- One content segment of a model response: its `type` tag (such as
`"thinking"` or `"text"`) and the text it carries when it is a text
segment.  A non-text segment carries no usable `text` attribute in the
provider SDK; accessing it fails. -/
structure ContentBlock where
  type : String
  text : List Char
deriving DecidableEq, Repr

/-- A collaborator invocation performed by a run of either script. -/
inductive Ev where
  | gmailAuth : Ev
  | gmailFetch : Ev
  | modelCall : Ev
  | slackPost : String → Ev
deriving DecidableEq, Repr

/-- Whether an invocation is an outbound webhook post. -/
def Ev.isPost : Ev → Bool
  | .slackPost _ => true
  | _ => false

/-- Number of outbound webhook posts in a run's invocation list. -/
def postCount (evs : List Ev) : Nat :=
  (evs.filter Ev.isPost).length

/-- Final state of a run: normal return, `sys.exit` with a message, or an
uncaught exception. -/
inductive Outcome where
  | success : Outcome
  | exited : String → Outcome
  | error : String → Outcome
deriving DecidableEq, Repr

/-- Error message printed by both scripts when the webhook URL is missing. -/
def missingWebhookMsg : String :=
  "ERROR: SLACK_WEBHOOK_URL environment variable is not set."

/-- The PRIORITY_EMOJI table, identical in both scripts: a fixed
five-entry dict from priority to symbol. -/
def PRIORITY_EMOJI (p : Int) : Option String :=
  if p = 1 then some "⚪"
  else if p = 2 then some "🟢"
  else if p = 3 then some "🔵"
  else if p = 4 then some "🟠"
  else if p = 5 then some "🔴"
  else none

/-- Embedding of `PRIORITY_EMOJI.get(priority, "⚪")` as used by both
renderers: table lookup with the white-circle default. -/
def emojiOf (p : Int) : String :=
  (PRIORITY_EMOJI p).getD "⚪"

namespace V1

/-- One parsed score of the filter variant (`gmail_priority.py`): a dict
with keys `priority` and `reason`. -/
structure Score where
  priority : Int
  reason : String
deriving DecidableEq, Repr

/-- Embedding of the response reduction in `score_emails` of
`gmail_priority.py`: `next(b.text for b in response.content if b.type ==
"text")` — skip non-text (thinking) segments and keep the first text
segment; `none` models the StopIteration raised when no text segment
exists. -/
def extract_text : List ContentBlock → Option (List Char)
  | [] => none
  | b :: rest => if b.type = "text" then some b.text else extract_text rest

/-- Text normalization of the filter variant before `json.loads`: only
`text.strip()`, with no fence handling. -/
def normalize (s : List Char) : List Char :=
  pyStrip s

/-- Embedding of the `high_priority` list comprehension in `main` of
`gmail_priority.py`: `[(emails[i], scores[i]) for i in range(len(emails))
if scores[i]["priority"] >= 4]`.  Indexing `scores[i]` past the end of the
scores list raises IndexError, modelled by `none`. -/
def high_priority : List Message → List Score → Option (List (Message × Score))
  | [], _ => some []
  | _ :: _, [] => none
  | e :: es, s :: ss =>
    match high_priority es ss with
    | none => none
    | some rest => some (if 4 ≤ s.priority then (e, s) :: rest else rest)

/-- Embedding of the text built by `post_to_slack` for one scored email. -/
def render_line (e : Message) (s : Score) : String :=
  emojiOf s.priority ++ " *[" ++ toString s.priority ++ "]* *" ++
    e.sender ++ "* — " ++ e.subject ++ "\n_" ++ s.reason ++ "_"

/-- The posting loop of `main`: one `requests.post` per selected email, in
order; a non-2xx response raises and aborts the loop (`postOk` gives the
transport's response to each payload). -/
def postLoop (hp : List (Message × Score)) (postOk : String → Bool) :
    List Ev × Outcome :=
  match hp with
  | [] => ([], .success)
  | (e, s) :: rest =>
    let text := render_line e s
    if postOk text then
      let r := postLoop rest postOk
      (.slackPost text :: r.1, r.2)
    else ([.slackPost text], .error "HTTPError")

/-- Embedding of `main` of `gmail_priority.py` from the point where the
webhook URL is read.  Parameters: the webhook environment variable, the
emails returned by the fetch, the parsed score array returned by the
model (its parsing is modelled by `extract_text` / `normalize`), and the
transport behaviour.  Returns the collaborator invocations performed and
the final outcome. -/
def main (webhook : Option String) (emails : List Message)
    (scores : List Score) (postOk : String → Bool) : List Ev × Outcome :=
  match webhook with
  | none => ([], .exited missingWebhookMsg)
  | some url =>
    if url = "" then ([], .exited missingWebhookMsg)
    else
      match emails with
      | [] => ([.gmailAuth, .gmailFetch], .success)
      | _ :: _ =>
        match high_priority emails scores with
        | none => ([.gmailAuth, .gmailFetch, .modelCall], .error "IndexError")
        | some hp =>
          match hp with
          | [] => ([.gmailAuth, .gmailFetch, .modelCall], .success)
          | _ :: _ =>
            let r := postLoop hp postOk
            ([.gmailAuth, .gmailFetch, .modelCall] ++ r.1, r.2)

end V1

namespace V2

/-- One parsed score of the digest variant (`gmail_priority/main.py`): a
dict with keys `priority`, `reason` and `action_needed`. -/
structure Score where
  priority : Int
  reason : String
  action_needed : Bool
deriving DecidableEq, Repr

/-- Embedding of `response.content[0].text` in `score_emails` of
`gmail_priority/main.py`: the first content segment is used
unconditionally; `none` models the IndexError on an empty response and
the failed attribute access when the first segment is not a text
segment. -/
def extract_text : List ContentBlock → Option (List Char)
  | [] => none
  | b :: _ => if b.type = "text" then some b.text else none

/-- Text normalization of the digest variant before `json.loads`: strip,
then when the text starts with a fence marker, drop the first line and
everything from the last fence marker on, and strip again. -/
def normalize (s : List Char) : List Char :=
  let t := pyStrip s
  if fence.isPrefixOf t then pyStrip (rsplitFence (afterNl t)) else t

/-- The descending-priority ordering used by `post_digest_to_slack`:
`a` may come before `b` when `b`'s priority is at most `a`'s. -/
def priorityGe (a b : Message × Score) : Prop :=
  b.2.priority ≤ a.2.priority

instance : DecidableRel priorityGe :=
  fun a b => Int.decLe b.2.priority a.2.priority

instance : IsTotal (Message × Score) priorityGe :=
  ⟨fun a b => Or.symm (Int.le_total a.2.priority b.2.priority)⟩

instance : IsTrans (Message × Score) priorityGe :=
  ⟨fun _ _ _ hab hbc => le_trans hbc hab⟩

/-- Embedding of `sorted(zip(emails, scores), key=priority, reverse=True)`
in `post_digest_to_slack`: `zip` truncates to the shorter list, and
Python's `sorted` is a stable sort, so (stable sorts for one total
preorder being extensionally unique) it is embedded as the stable
`List.insertionSort` under `priorityGe`. -/
def digest_pairs (emails : List Message) (scores : List Score) :
    List (Message × Score) :=
  (emails.zip scores).insertionSort priorityGe

/-- Embedding of `gmail_link`. -/
def gmail_link (id : String) : String :=
  "https://mail.google.com/mail/u/0/#all/" ++ id

/-- One rendered digest entry of `post_digest_to_slack`. -/
def render_entry (e : Message) (s : Score) : String :=
  emojiOf s.priority ++ " *[" ++ toString s.priority ++ "] " ++ e.subject ++
    "*" ++ (if s.action_needed then " ⚡ *Action needed*" else "") ++
    "\nFrom: " ++ e.sender ++ "\n_" ++ s.reason ++ "_\n<" ++
    gmail_link e.id ++ "|Open in Gmail>"

/-- The full digest text of `post_digest_to_slack`: header with date and
total count, then one entry per sorted pair, joined by blank lines.  The
current date is a parameter. -/
def render_digest (dateStr : String) (emails : List Message)
    (scores : List Score) : String :=
  String.intercalate "\n\n"
    (("*📬 Email Digest — " ++ dateStr ++ " — " ++ toString emails.length ++
        " unread*\n") ::
      (digest_pairs emails scores).map fun p => render_entry p.1 p.2)

/-- Embedding of `main` of `gmail_priority/main.py` from the point where
the webhook URL is read, parameterized like `V1.main` plus the current
date string used by the digest header. -/
def main (webhook : Option String) (emails : List Message)
    (scores : List Score) (dateStr : String) (postOk : String → Bool) :
    List Ev × Outcome :=
  match webhook with
  | none => ([], .exited missingWebhookMsg)
  | some url =>
    if url = "" then ([], .exited missingWebhookMsg)
    else
      match emails with
      | [] => ([.gmailAuth, .gmailFetch], .success)
      | _ :: _ =>
        let text := render_digest dateStr emails scores
        if postOk text then
          ([.gmailAuth, .gmailFetch, .modelCall, .slackPost text], .success)
        else
          ([.gmailAuth, .gmailFetch, .modelCall, .slackPost text],
            .error "HTTPError")

end V2

/-! Sample data used by witnesses and counterexamples. -/

/-- Sample fetched email 1. -/
def exM1 : Message := ⟨"id1", "Prod outage", "ops@example.com", "the site is down"⟩

/-- Sample fetched email 2. -/
def exM2 : Message := ⟨"id2", "Quarterly report", "boss@example.com", "please review today"⟩

/-- Sample fetched email 3. -/
def exM3 : Message := ⟨"id3", "Team lunch", "hr@example.com", "lunch on Friday"⟩

/-- Sample fetched email 4. -/
def exM4 : Message := ⟨"id4", "Newsletter", "news@example.com", "weekly roundup"⟩

/-- Sample fetched email 5. -/
def exM5 : Message := ⟨"id5", "Sale", "shop@example.com", "20 percent off"⟩

/-- The five sample emails of the spec's filter-mode test vector. -/
def exEmails5 : List Message := [exM1, exM2, exM3, exM4, exM5]

/-- Filter-variant score with priority 5. -/
def exS5 : V1.Score := ⟨5, "urgent outage"⟩

/-- Filter-variant score with priority 3. -/
def exS3 : V1.Score := ⟨3, "routine"⟩

/-- Filter-variant score with priority 4. -/
def exS4 : V1.Score := ⟨4, "needs attention today"⟩

/-- Filter-variant score with priority 2. -/
def exS2 : V1.Score := ⟨2, "can wait"⟩

/-- Filter-variant score with priority 1. -/
def exS1 : V1.Score := ⟨1, "marketing"⟩

/-- The spec's filter-mode score vector `[5,3,4,2,1]`. -/
def exScoresF : List V1.Score := [exS5, exS3, exS4, exS2, exS1]

/-- Digest-variant score with priority 2. -/
def exD2 : V2.Score := ⟨2, "low", false⟩

/-- Digest-variant score with priority 5. -/
def exD5 : V2.Score := ⟨5, "urgent", true⟩

/-- Digest-variant score with priority 3. -/
def exD3 : V2.Score := ⟨3, "normal", false⟩

/-- A small well-formed JSON-array payload, as a character list. -/
def exJson : List Char := ['[', '1', ',', ' ', '2', ']']

/-- A reasoning segment of a model response. -/
def exThinking : ContentBlock := ⟨"thinking", ['p', 'l', 'a', 'n']⟩

/-- The final text segment of a model response. -/
def exTextBlock : ContentBlock := ⟨"text", ['[', '1', ']']⟩

/-! Theorems. -/

/-- A webhook post event counts as a post. -/
theorem isPost_slackPost (t : String) : Ev.isPost (Ev.slackPost t) = true := rfl

/-- The auth event is not a post. -/
theorem isPost_gmailAuth : Ev.isPost .gmailAuth = false := rfl

/-- The fetch event is not a post. -/
theorem isPost_gmailFetch : Ev.isPost .gmailFetch = false := rfl

/-- The model-call event is not a post. -/
theorem isPost_modelCall : Ev.isPost .modelCall = false := rfl

namespace V1

/-- Characterization of the `high_priority` comprehension: when the score
array is at least as long as the email list it succeeds and selects, in
order, exactly the index-paired entries with priority at least 4. -/
theorem high_priority_eq (es : List Message) (ss : List Score)
    (h : es.length ≤ ss.length) :
    high_priority es ss =
      some ((es.zip ss).filter fun p => decide (4 ≤ p.2.priority)) := by
  induction es generalizing ss with
  | nil => rfl
  | cons e es ih =>
    cases ss with
    | nil => simp at h
    | cons s ss =>
      have ih' := ih ss (by simpa using h)
      by_cases hc : (4:Int) ≤ s.priority <;>
        simp [high_priority, ih', hc]

end V1

/-- C4: in filter mode, for every list of messages paired with scores by
index, exactly the pairs whose priority is at least 4 are selected for
sending, in order, and no others. -/
theorem claim_c4_filter_selects_exactly_ge4 (es : List Message)
    (ss : List V1.Score) (h : es.length ≤ ss.length) :
    V1.high_priority es ss =
      some ((es.zip ss).filter fun p => decide (4 ≤ p.2.priority)) :=
  V1.high_priority_eq es ss h

/-- Witness for C4 at the spec's test vector: scores `[5,3,4,2,1]` over
five messages select exactly the messages at positions 0 and 2. -/
theorem claim_c4_witness :
    exEmails5.length ≤ exScoresF.length ∧
      V1.high_priority exEmails5 exScoresF = some [(exM1, exS5), (exM3, exS4)] := by
  refine ⟨by decide, ?_⟩
  rw [claim_c4_filter_selects_exactly_ge4 exEmails5 exScoresF (by decide)]
  rfl

/-- C8: the priority-to-symbol mapping assigns five distinct symbols to
priorities 1 through 5, and every out-of-range priority is rendered with
the designated default symbol (rendering is total, so it never raises). -/
theorem claim_c8_priority_symbol_table :
    (∀ p q : Int, 1 ≤ p → p ≤ 5 → 1 ≤ q → q ≤ 5 → emojiOf p = emojiOf q → p = q) ∧
    (∀ p : Int, p < 1 ∨ 5 < p → emojiOf p = "⚪") := by
  constructor
  · intro p q hp1 hp5 hq1 hq5 h
    have hp : p = 1 ∨ p = 2 ∨ p = 3 ∨ p = 4 ∨ p = 5 := by omega
    have hq : q = 1 ∨ q = 2 ∨ q = 3 ∨ q = 4 ∨ q = 5 := by omega
    rcases hp with rfl | rfl | rfl | rfl | rfl <;>
      rcases hq with rfl | rfl | rfl | rfl | rfl <;> revert h <;> decide
  · intro p hp
    have h1 : ¬ p = 1 := by omega
    have h2 : ¬ p = 2 := by omega
    have h3 : ¬ p = 3 := by omega
    have h4 : ¬ p = 4 := by omega
    have h5 : ¬ p = 5 := by omega
    simp [emojiOf, PRIORITY_EMOJI, h1, h2, h3, h4, h5]

/-- Witness for C8: the malformed priorities 0 and 6 both render with the
default symbol. -/
theorem claim_c8_witness : emojiOf 0 = "⚪" ∧ emojiOf 6 = "⚪" :=
  ⟨claim_c8_priority_symbol_table.2 0 (Or.inl (by decide)),
    claim_c8_priority_symbol_table.2 6 (Or.inr (by decide))⟩

/-- C9: when the webhook environment variable is absent, both variants
exit with the descriptive error message before performing any mailbox,
model, or delivery invocation. -/
theorem claim_c9_missing_webhook_no_invocations :
    ∀ (es1 : List Message) (ss1 : List V1.Score) (pOk1 : String → Bool)
      (es2 : List Message) (ss2 : List V2.Score) (d : String)
      (pOk2 : String → Bool),
      V1.main none es1 ss1 pOk1 = ([], .exited missingWebhookMsg) ∧
      V2.main none es2 ss2 d pOk2 = ([], .exited missingWebhookMsg) :=
  fun _ _ _ _ _ _ _ => ⟨rfl, rfl⟩

/-- C10: the default symbol used for an out-of-range priority is the very
symbol assigned to priority 1, so a malformed priority renders
symbol-wise like a minimal-priority message. -/
theorem claim_c10_default_symbol_matches_priority_one (p : Int)
    (hp : p < 1 ∨ 5 < p) : emojiOf p = emojiOf 1 := by
  have h1 : ¬ p = 1 := by omega
  have h2 : ¬ p = 2 := by omega
  have h3 : ¬ p = 3 := by omega
  have h4 : ¬ p = 4 := by omega
  have h5 : ¬ p = 5 := by omega
  simp [emojiOf, PRIORITY_EMOJI, h1, h2, h3, h4, h5]

/-- Witness for C10 at the malformed priority 6. -/
theorem claim_c10_witness : emojiOf 6 = emojiOf 1 :=
  claim_c10_default_symbol_matches_priority_one 6 (Or.inr (by decide))

/-- C1 (code bug): neither script validates the parsed score count.  With
two fetched emails and a one-entry model response, the digest variant's
`zip` silently truncates: the run succeeds, delivers exactly one digest,
and that digest pairs only one of the two messages — no hard failure
occurs.  Likewise the filter variant silently ignores a surplus score
(one email, two scores) and succeeds. -/
theorem claim_c1_code_bug_eval :
    (V2.main (some "u") [exM1, exM2] [exD5] "Jan 01, 2026" (fun _ => true)).2
        = .success ∧
    postCount (V2.main (some "u") [exM1, exM2] [exD5] "Jan 01, 2026"
        (fun _ => true)).1 = 1 ∧
    (V2.digest_pairs [exM1, exM2] [exD5]).length = 1 ∧
    (V1.main (some "u") [exM1] [exS5, exS3] (fun _ => true)).2 = .success :=
  ⟨rfl, rfl, rfl, rfl⟩

/-- C2 counterexample: a filter-variant run with two selected messages
makes strictly more than one outbound webhook post (namely two), so the
delivery operation is not invoked at most once per run. -/
theorem claim_c2_counterexample :
    1 < postCount (V1.main (some "https://hooks.example/x") [exM1, exM2]
        [exS5, exS4] (fun _ => true)).1 := by
  decide

namespace V1

/-- When the transport accepts every payload, the posting loop posts each
selected pair exactly once, in order, and succeeds. -/
theorem postLoop_all_ok (hp : List (Message × Score)) (pOk : String → Bool)
    (h : ∀ t, pOk t = true) :
    postLoop hp pOk =
      (hp.map (fun p => Ev.slackPost (render_line p.1 p.2)), .success) := by
  induction hp with
  | nil => rfl
  | cons p rest ih => cases p with
    | mk e s => simp [postLoop, h, ih]

end V1

/-- Every event produced by mapping `slackPost` over a list is a post, so
the post count of such a list is its length. -/
theorem postCount_map_slackPost (l : List (Message × V1.Score)) :
    postCount (l.map fun p => Ev.slackPost (V1.render_line p.1 p.2)) =
      l.length := by
  induction l with
  | nil => rfl
  | cons p rest ih =>
    simp only [postCount] at ih
    simp [postCount, List.filter_cons, isPost_slackPost, ih]

/-- C2 amended: the full-digest variant makes at most one outbound webhook
post per run; the filter variant makes exactly one post per selected
message (when the transport accepts them all), with no retry anywhere —
so a filter run with several selected messages posts several times. -/
theorem claim_c2_amended_delivery_counts :
    (∀ (w : Option String) (es : List Message) (ss : List V2.Score)
        (d : String) (pOk : String → Bool),
        postCount (V2.main w es ss d pOk).1 ≤ 1) ∧
    (∀ (url : String) (es : List Message) (ss : List V1.Score)
        (hp : List (Message × V1.Score)) (pOk : String → Bool), ¬ url = "" →
        V1.high_priority es ss = some hp → (∀ t, pOk t = true) →
        postCount (V1.main (some url) es ss pOk).1 = hp.length) := by
  constructor
  · intro w es ss d pOk
    match w with
    | none => simp [V2.main, postCount]
    | some url =>
      by_cases hu : url = ""
      · simp [V2.main, hu, postCount]
      · match es with
        | [] =>
          simp [V2.main, hu, postCount, List.filter_cons, isPost_gmailAuth,
            isPost_gmailFetch]
        | e :: es' =>
          by_cases hok : pOk (V2.render_digest d (e :: es') ss) = true <;>
            simp [V2.main, hu, hok, postCount, List.filter_cons,
              isPost_gmailAuth, isPost_gmailFetch, isPost_modelCall,
              isPost_slackPost]
  · intro url es ss hp pOk hu hhp hok
    cases es with
    | nil =>
      simp [V1.high_priority] at hhp
      simp [V1.main, hu, postCount, List.filter_cons, isPost_gmailAuth,
        isPost_gmailFetch, hhp]
    | cons e es' =>
      cases hp with
      | nil =>
        simp [V1.main, hu, hhp, postCount, List.filter_cons, isPost_gmailAuth,
          isPost_gmailFetch, isPost_modelCall]
      | cons p hp' =>
        have hloop := V1.postLoop_all_ok (p :: hp') pOk hok
        have hcnt := postCount_map_slackPost (p :: hp')
        simp only [postCount] at hcnt
        simp only [V1.main, hu, hhp, if_neg hu, hloop, postCount,
          List.filter_append, List.filter_cons, isPost_gmailAuth,
          isPost_gmailFetch, isPost_modelCall, isPost_slackPost] at hcnt ⊢
        simpa using hcnt

/-- Witness for C2 amended: a digest run posts at most once, and a filter
run with two selected messages posts exactly twice. -/
theorem claim_c2_amended_witness :
    postCount (V2.main (some "u") [exM1] [exD5] "Jan 01, 2026"
        (fun _ => true)).1 ≤ 1 ∧
      postCount (V1.main (some "u") [exM1, exM2] [exS5, exS4]
        (fun _ => true)).1 = 2 := by
  constructor
  · exact claim_c2_amended_delivery_counts.1 (some "u") [exM1] [exD5]
      "Jan 01, 2026" (fun _ => true)
  · exact claim_c2_amended_delivery_counts.2 "u" [exM1, exM2] [exS5, exS4]
      [(exM1, exS5), (exM2, exS4)] (fun _ => true) (by decide) (by decide)
      (fun _ => rfl)

/-- C6: in filter mode, when no score reaches priority 4 the run makes no
outbound webhook call at all and still ends successfully. -/
theorem claim_c6_no_high_priority_no_post (url : String) (es : List Message)
    (ss : List V1.Score) (pOk : String → Bool) (hu : ¬ url = "")
    (hl : es.length ≤ ss.length) (hp : ∀ s ∈ ss, s.priority < 4) :
    postCount (V1.main (some url) es ss pOk).1 = 0 ∧
      (V1.main (some url) es ss pOk).2 = .success := by
  have hfil : (es.zip ss).filter (fun p => decide (4 ≤ p.2.priority)) = [] := by
    rw [List.filter_eq_nil_iff]
    intro a ha
    have hmem := (List.of_mem_zip ha).2
    have := hp a.2 hmem
    simp only [decide_eq_true_eq]
    omega
  cases es with
  | nil =>
    simp [V1.main, hu, postCount, List.filter_cons, isPost_gmailAuth,
      isPost_gmailFetch]
  | cons e es' =>
    have heq := V1.high_priority_eq (e :: es') ss hl
    rw [hfil] at heq
    simp [V1.main, hu, heq, postCount, List.filter_cons, isPost_gmailAuth,
      isPost_gmailFetch, isPost_modelCall]

namespace V2

/-- Filtering the pairs of one priority after an ordered insertion keeps
them in place, with the inserted pair in front exactly when it has that
priority: the pairs the insertion walks past are strictly higher. -/
theorem filter_orderedInsert (p : Int) (x : Message × Score)
    (l : List (Message × Score)) :
    ((l.orderedInsert priorityGe x).filter fun z => z.2.priority == p) =
      if x.2.priority == p
      then x :: l.filter (fun z => z.2.priority == p)
      else l.filter (fun z => z.2.priority == p) := by
  induction l with
  | nil =>
    by_cases hx : (x.2.priority == p) = true <;>
      simp [List.orderedInsert, List.filter_cons, hx]
  | cons y l ih =>
    by_cases hr : priorityGe x y
    · by_cases hx : (x.2.priority == p) = true <;>
        simp [List.orderedInsert, hr, List.filter_cons, hx]
    · have hlt : x.2.priority < y.2.priority := by
        simp only [priorityGe, not_le] at hr
        exact hr
      by_cases hx : (x.2.priority == p) = true
      · have hxp : x.2.priority = p := by simpa using hx
        have hyp : (y.2.priority == p) = false := by
          simp only [beq_eq_false_iff_ne, ne_eq]
          omega
        simp [List.orderedInsert, hr, List.filter_cons, hyp, ih, hx]
      · simp [List.orderedInsert, hr, List.filter_cons, ih, hx]

/-- Stability of the digest sort: for every priority value, the pairs
carrying that priority appear in the sorted list in their original fetch
order. -/
theorem filter_insertionSort (p : Int) (l : List (Message × Score)) :
    ((l.insertionSort priorityGe).filter fun z => z.2.priority == p) =
      l.filter (fun z => z.2.priority == p) := by
  induction l with
  | nil => rfl
  | cons x l ih =>
    by_cases hx : (x.2.priority == p) = true <;>
      simp [List.insertionSort, filter_orderedInsert, hx, ih, List.filter_cons]

end V2

/-- C5: the full-digest pairing is rendered sorted by priority descending,
the sort is stable (for every priority value the original fetch order of
its pairs is preserved), the sorted list is a permutation of the paired
input, and the spec's example with priorities `[2,5,3]` renders in the
order `5, 3, 2`. -/
theorem claim_c5_digest_sorted_stable (es : List Message)
    (ss : List V2.Score) :
    (V2.digest_pairs es ss).Pairwise
        (fun a b => b.2.priority ≤ a.2.priority) ∧
    (∀ p : Int, ((V2.digest_pairs es ss).filter fun z => z.2.priority == p) =
        (es.zip ss).filter fun z => z.2.priority == p) ∧
    (V2.digest_pairs es ss).Perm (es.zip ss) ∧
    V2.digest_pairs [exM1, exM2, exM3] [exD2, exD5, exD3] =
      [(exM2, exD5), (exM3, exD3), (exM1, exD2)] :=
  ⟨List.sorted_insertionSort V2.priorityGe (es.zip ss),
    fun p => V2.filter_insertionSort p (es.zip ss),
    List.perm_insertionSort V2.priorityGe (es.zip ss),
    by decide⟩

/-- Witness for C6 at the spec's all-low test vector `[1,2,3,3,2]`. -/
theorem claim_c6_witness :
    postCount (V1.main (some "u") exEmails5 [exS1, exS2, exS3, exS3, exS2]
        (fun _ => true)).1 = 0 ∧
      (V1.main (some "u") exEmails5 [exS1, exS2, exS3, exS3, exS2]
        (fun _ => true)).2 = .success :=
  claim_c6_no_high_priority_no_post "u" exEmails5 [exS1, exS2, exS3, exS3, exS2]
    (fun _ => true) (by decide) (by decide) (by decide)

/-- A text equal to its own strip neither starts nor ends in whitespace:
both dropWhile passes of `pyStrip` leave it unchanged. -/
theorem strip_parts {t : List Char} (h : pyStrip t = t) :
    t.dropWhile isSpc = t ∧ t.reverse.dropWhile isSpc = t.reverse := by
  have hsuf : t.dropWhile isSpc <:+ t := List.dropWhile_suffix isSpc
  have hlen1 : (t.dropWhile isSpc).length ≤ t.length := hsuf.length_le
  have hsuf2 : (t.dropWhile isSpc).reverse.dropWhile isSpc <:+
      (t.dropWhile isSpc).reverse := List.dropWhile_suffix isSpc
  have hlen2 : ((t.dropWhile isSpc).reverse.dropWhile isSpc).length ≤
      (t.dropWhile isSpc).length := by simpa using hsuf2.length_le
  have hlen3 : (pyStrip t).length =
      ((t.dropWhile isSpc).reverse.dropWhile isSpc).length := by
    simp [pyStrip]
  have hlen4 : (pyStrip t).length = t.length := by rw [h]
  have hteq : (t.dropWhile isSpc).length = t.length := by omega
  have h1 : t.dropWhile isSpc = t := hsuf.eq_of_length hteq
  refine ⟨h1, ?_⟩
  have h2 : t = (t.reverse.dropWhile isSpc).reverse := by
    conv_lhs => rw [← h]
    rw [pyStrip, h1]
  have := congrArg List.reverse h2
  simpa using this.symm

/-- A nonempty text equal to its own lstrip starts with a non-space
character. -/
theorem head_not_spc {c : Char} {t : List Char}
    (h : (c :: t).dropWhile isSpc = c :: t) : isSpc c = false := by
  by_contra hc
  rw [Bool.not_eq_false] at hc
  rw [List.dropWhile_cons_of_pos hc] at h
  have hle : (t.dropWhile isSpc).length ≤ t.length :=
    (List.dropWhile_suffix isSpc).length_le
  have := congrArg List.length h
  simp at this
  omega

/-- Stripping a stripped text with one newline appended gives the text
back. -/
theorem pyStrip_append_nl {t : List Char} (h1 : t.dropWhile isSpc = t)
    (h2 : t.reverse.dropWhile isSpc = t.reverse) :
    pyStrip (t ++ ['\n']) = t := by
  cases t with
  | nil => decide
  | cons c t' =>
    have hc : isSpc c = false := head_not_spc h1
    have hfront : ((c :: t') ++ ['\n']).dropWhile isSpc = (c :: t') ++ ['\n'] := by
      rw [List.cons_append, List.dropWhile_cons_of_neg (by simp [hc])]
    rw [pyStrip, hfront]
    have hrev : ((c :: t') ++ ['\n']).reverse = '\n' :: (c :: t').reverse := by
      simp
    rw [hrev, List.dropWhile_cons_of_pos (by decide), h2]
    simp

/-- The first-line split of a text opening with the fenced-JSON marker
returns everything after that marker's newline. -/
theorem splitOnce_fenceJson (r : List Char) :
    splitOnce (fenceJson ++ '\n' :: r) = some r := rfl

/-- A text whose tail has no fence marker and that does not itself start
one has none at its head either. -/
theorem lastFence_cons_none {c : Char} {t : List Char}
    (h : lastFence (c :: t) = none) : lastFence t = none := by
  cases ht : lastFence t with
  | none => rfl
  | some i => simp [lastFence, ht] at h

/-- In a fence-free text followed by a newline and a fence marker, the
last (and only) fence occurrence sits right after that newline. -/
theorem lastFence_append_nl_fence (t : List Char) (h : lastFence t = none) :
    lastFence (t ++ '\n' :: fence) = some (t.length + 1) := by
  induction t with
  | nil => decide
  | cons c t ih =>
    have ht := ih (lastFence_cons_none h)
    rw [List.cons_append]
    simp [lastFence, ht]

/-- A text starting with the fence marker contains a fence occurrence. -/
theorem lastFence_of_isPrefixOf {t : List Char}
    (h : fence.isPrefixOf t = true) : lastFence t ≠ none := by
  cases t with
  | nil => simp [fence, bt, List.isPrefixOf] at h
  | cons c r =>
    simp only [lastFence]
    cases hr : lastFence r with
    | some i => simp
    | none => simp [h]

/-- The wrapped payload written out as an explicit cons chain. -/
theorem wrapFence_eq_cons (t : List Char) :
    wrapFence t =
      bt :: bt :: bt :: 'j' :: 's' :: 'o' :: 'n' :: '\n' ::
        (t ++ '\n' :: fence) := rfl

/-- A fence-wrapped payload is already stripped: it starts and ends with a
backtick. -/
theorem pyStrip_wrapFence (t : List Char) :
    pyStrip (wrapFence t) = wrapFence t := by
  have hfront : (wrapFence t).dropWhile isSpc = wrapFence t := by
    rw [wrapFence_eq_cons, List.dropWhile_cons_of_neg (by decide)]
  have hrev : (wrapFence t).reverse =
      bt :: bt :: bt :: '\n' ::
        (t.reverse ++ ['\n', 'n', 'o', 's', 'j', bt, bt, bt]) := by
    simp [wrapFence, fence, fenceJson]
  have hback : (wrapFence t).reverse.dropWhile isSpc = (wrapFence t).reverse := by
    rw [hrev, List.dropWhile_cons_of_neg (by decide)]
  rw [pyStrip, hfront, hback, List.reverse_reverse]

/-- A fence-wrapped payload starts with the fence marker. -/
theorem fence_isPrefixOf_wrapFence (t : List Char) :
    fence.isPrefixOf (wrapFence t) = true := by
  rw [wrapFence_eq_cons]
  simp [fence, List.isPrefixOf]

/-- The digest variant's normalizer strips a fenced wrapping: on a
fence-free, already-stripped payload wrapped in a fenced JSON block it
returns exactly the payload. -/
theorem normalize_wrapFence (t : List Char) (hF : lastFence t = none)
    (hS : pyStrip t = t) : V2.normalize (wrapFence t) = t := by
  obtain ⟨h1, h2⟩ := strip_parts hS
  have htake : (t ++ '\n' :: fence).take (t.length + 1) = t ++ ['\n'] := by
    rw [List.take_append_eq_append_take,
      List.take_of_length_le (by omega), Nat.add_sub_cancel_left]
    rfl
  simp only [V2.normalize, pyStrip_wrapFence, fence_isPrefixOf_wrapFence,
    if_true]
  have hnl : afterNl (wrapFence t) = t ++ '\n' :: fence := by
    rw [wrapFence, afterNl, splitOnce_fenceJson]
    rfl
  rw [hnl, rsplitFence, lastFence_append_nl_fence t hF]
  show pyStrip ((t ++ '\n' :: fence).take (t.length + 1)) = t
  rw [htake, pyStrip_append_nl h1 h2]

/-- The digest variant's normalizer leaves a fence-free, already-stripped
payload unchanged. -/
theorem normalize_unwrapped (t : List Char) (hF : lastFence t = none)
    (hS : pyStrip t = t) : V2.normalize t = t := by
  have hpre : fence.isPrefixOf t = false := by
    by_contra hc
    rw [Bool.not_eq_false] at hc
    exact lastFence_of_isPrefixOf hc hF
  simp [V2.normalize, hS, hpre]

/-- C7: for every well-formed (fence-free, stripped) structured response
text, the digest variant's normalizer maps the fence-wrapped form and the
unwrapped form to the same text, so parsing either yields identical
structured output. -/
theorem claim_c7_fence_strip_idempotent (t : List Char)
    (hF : lastFence t = none) (hS : pyStrip t = t) :
    V2.normalize (wrapFence t) = V2.normalize t :=
  (normalize_wrapFence t hF hS).trans (normalize_unwrapped t hF hS).symm

/-- Witness for C7 at a concrete JSON-array payload. -/
theorem claim_c7_witness :
    (lastFence exJson = none ∧ pyStrip exJson = exJson) ∧
      V2.normalize (wrapFence exJson) = V2.normalize exJson :=
  ⟨⟨by decide, by decide⟩,
    claim_c7_fence_strip_idempotent exJson (by decide) (by decide)⟩

/-- C3 counterexample: in the digest variant, a response made of a
reasoning segment followed by the final text segment is not reduced to
that text segment (which would be `some exTextBlock.text`): the code
reads only the first segment and fails, refuting the claim that each
variant discards reasoning segments and keeps the final text segment. -/
theorem claim_c3_counterexample :
    V2.extract_text [exThinking, exTextBlock] = none := by
  decide

/-- C3 amended: the response-shape tolerances are split across the
variants instead of shared.  The filter variant discards non-text
(reasoning) segments and keeps the first text segment; the digest variant
strips a fenced code block from its payload; and the filter variant does
not strip fences (a wrapped payload stays wrapped). -/
theorem claim_c3_amended_normalizers :
    (∀ (pre : List ContentBlock) (b : ContentBlock),
        (∀ x ∈ pre, ¬ x.type = "text") → b.type = "text" →
        V1.extract_text (pre ++ [b]) = some b.text) ∧
    (∀ t : List Char, lastFence t = none → pyStrip t = t →
        V2.normalize (wrapFence t) = t) ∧
    ¬ V1.normalize (wrapFence exJson) = exJson := by
  refine ⟨?_, fun t hF hS => normalize_wrapFence t hF hS, by decide⟩
  intro pre b hpre hb
  induction pre with
  | nil => simp [V1.extract_text, hb]
  | cons x pre ih =>
    have hx := hpre x (by simp)
    rw [List.cons_append]
    simp only [V1.extract_text, if_neg hx]
    exact ih fun y hy => hpre y (by simp [hy])

/-- Witness for C3 amended: the filter variant skips a concrete reasoning
segment, and the digest variant unwraps a concrete fenced payload. -/
theorem claim_c3_amended_witness :
    V1.extract_text [exThinking, exTextBlock] = some exTextBlock.text ∧
      V2.normalize (wrapFence exJson) = exJson :=
  ⟨claim_c3_amended_normalizers.1 [exThinking] exTextBlock (by decide)
      (by decide),
    claim_c3_amended_normalizers.2.1 exJson (by decide) (by decide)⟩
